import Mathlib

/-!
Shallow embedding of the checksum kernels declared in `src/crc.h`
(Embed_Math repository).  The repository ships only the header under
`src/`; each kernel body below is modelled from the specification, as
noted in its doc comment.  Byte buffers are `List Nat` in transmission
order; each update takes its byte argument modulo 256, and running
states are kept inside the kernel's width by explicit `% 2 ^ w`
wherever the width matters, mirroring fixed-width C arithmetic.
-/

/-- One LSB-first (reflected) CRC bit step with reflected polynomial
`poly`: shift right one bit and XOR the polynomial in when the dropped
bit was set. -/
def lsb_step (poly c : Nat) : Nat :=
  if c % 2 = 1 then (c >>> 1) ^^^ poly else c >>> 1

/-- `n` LSB-first bit steps. -/
def lsb_steps (poly : Nat) : Nat → Nat → Nat
  | 0, c => c
  | n + 1, c => lsb_steps poly n (lsb_step poly c)

/-- Fold one byte into an LSB-first CRC state: XOR the byte in, then
run eight bit steps. -/
def lsb_byte (poly c b : Nat) : Nat := lsb_steps poly 8 (c ^^^ b % 256)

/-- One MSB-first (forward) CRC bit step at width `w`: shift left one
bit, XOR the polynomial in when the bit shifted out was set, and keep
the state inside `w` bits. -/
def msb_step (w poly c : Nat) : Nat :=
  if (c >>> (w - 1)) % 2 = 1 then ((c <<< 1) ^^^ poly) % 2 ^ w
  else (c <<< 1) % 2 ^ w

/-- `n` MSB-first bit steps at width `w`. -/
def msb_steps (w poly : Nat) : Nat → Nat → Nat
  | 0, c => c
  | n + 1, c => msb_steps w poly n (msb_step w poly c)

/-- Fold one byte into an MSB-first CRC state of width `w ≥ 8`: XOR the
byte into the top byte of the state, then run eight bit steps. -/
def msb_byte (w poly c b : Nat) : Nat :=
  msb_steps w poly 8 (c ^^^ (b % 256) <<< (w - 8))

/-- Modelled from the spec: `crc.cpp` is not under `src/`.  Default
CRC-8 of §4.1: polynomial 0x07, init 0, no reflection, no final XOR. -/
def crc_crc8 (p : List Nat) : Nat := p.foldl (msb_byte 8 0x07) 0

/-- Modelled from the spec: `crc.cpp` is not under `src/`.  Generic
bit-serial CRC-8 of §4.1, parameterised by polynomial and initial
value, no reflection, no final XOR. -/
def crc8_generic (buf : List Nat) (polynomial initial_value : Nat) : Nat :=
  buf.foldl (msb_byte 8 polynomial) initial_value

/-- Modelled from the spec: `crc.cpp` is not under `src/`.  DVB-S2
CRC-8 one-byte update of §4.1: polynomial 0xD5, no reflection. -/
def crc8_dvb_s2 (crc a : Nat) : Nat := msb_byte 8 0xD5 crc a

/-- Modelled from the spec: `crc.cpp` is not under `src/`.  DVB-S2
CRC-8 block update: folds each byte through `crc8_dvb_s2` starting
from the caller-held running state. -/
def crc8_dvb_s2_update (crc : Nat) (data : List Nat) : Nat :=
  data.foldl crc8_dvb_s2 crc

/-- Modelled from the spec: `crc.cpp` is not under `src/`.  DVB CRC-8
block update of §4.1 (polynomial 0xD5), folding a buffer into the
caller-held running state. -/
def crc8_dvb_update (crc : Nat) (buf : List Nat) : Nat :=
  buf.foldl (msb_byte 8 0xD5) crc

/-- Modelled from the spec: `crc.cpp` is not under `src/`.  Maxim /
Dallas 1-Wire CRC-8 of §4.1: polynomial 0x31 with input and output
reflection, i.e. the LSB-first form with the bit-reversed polynomial
0x8C; init 0, no final XOR. -/
def crc8_maxim (data : List Nat) : Nat := data.foldl (lsb_byte 0x8C) 0

/-- Modelled from the spec: `crc.cpp` is not under `src/`.  SAE-J1850
CRC-8 of §4.1: polynomial 0x1D, init 0xFF, no reflection, final XOR
0xFF. -/
def crc8_sae (data : List Nat) : Nat :=
  (data.foldl (msb_byte 8 0x1D) 0xFF) ^^^ 0xFF

/-- Modelled from the spec: `crc.cpp` is not under `src/`.  RDS02UF
CRC-8 of §4.1: polynomial 0x1D, init 0, no reflection, no final XOR. -/
def crc8_rds02uf (data : List Nat) : Nat := data.foldl (msb_byte 8 0x1D) 0

/-- Modelled from the spec: `crc.cpp` is not under `src/`.  XMODEM
CRC-16 one-byte update of §4.3: polynomial 0x1021, MSB first. -/
def crc_xmodem_update (crc data : Nat) : Nat := msb_byte 16 0x1021 crc data

/-- Modelled from the spec: `crc.cpp` is not under `src/`.  XMODEM
CRC-16 block form of §4.3: init 0x0000, no reflection, no final XOR. -/
def crc_xmodem (data : List Nat) : Nat := data.foldl crc_xmodem_update 0

/-- Modelled from the spec: `crc.cpp` is not under `src/`.  Standard
CRC-32 of §4.5: reflected polynomial 0xEDB88320, chained from the
caller-held running state with no implicit xor-in or xor-out. -/
def crc_crc32 (crc : Nat) (buf : List Nat) : Nat :=
  buf.foldl (lsb_byte 0xEDB88320) crc

/-- Modelled from the spec: `crc.cpp` is not under `src/`.  The
16-entry nibble table of the small CRC-32 variant of §4.5: entry `i`
is four LSB-first bit steps applied to nibble `i`. -/
def crc32_small_tab (i : Nat) : Nat := lsb_steps 0xEDB88320 4 (i % 16)

/-- Modelled from the spec: `crc.cpp` is not under `src/`.  One byte of
the small-table CRC-32 of §4.5: two nibble lookups, low nibble first. -/
def crc32_small_byte (crc b : Nat) : Nat :=
  let b' := b % 256
  let c1 := crc32_small_tab (crc ^^^ b') ^^^ crc >>> 4
  crc32_small_tab (c1 ^^^ b' >>> 4) ^^^ c1 >>> 4

/-- Modelled from the spec: `crc.cpp` is not under `src/`.  Small-table
CRC-32 of §4.5, chained from the caller-held running state with no
implicit xor-in or xor-out. -/
def crc32_small (crc : Nat) (buf : List Nat) : Nat :=
  buf.foldl crc32_small_byte crc

/-- Modelled from the spec: `crc.cpp` is not under `src/`.  CRC-24 of
§4.4: polynomial 0x1864CFB, width 24, init 0, no reflection, no final
XOR. -/
def crc_crc24 (bytes : List Nat) : Nat :=
  bytes.foldl (msb_byte 24 0x1864CFB) 0

/-- Modelled from the spec: `crc.cpp` is not under `src/`.  IBM CRC-16
of §4.3: polynomial 0x8005 reflected (LSB-first constant 0xA001),
caller-supplied init, no final XOR. -/
def crc_crc16_ibm (crc_accum : Nat) (data_blk : List Nat) : Nat :=
  data_blk.foldl (lsb_byte 0xA001) crc_accum

/-- Modelled from the spec: `crc.cpp` is not under `src/`.  Seeded
CCITT CRC-16 of §4.3: polynomial 0x1021, caller-supplied init, no
reflection, no final XOR. -/
def crc16_ccitt (buf : List Nat) (crc : Nat) : Nat :=
  buf.foldl (msb_byte 16 0x1021) crc

/-- Modelled from the spec: `crc.cpp` is not under `src/`.  Reversed
CCITT CRC-16 of §4.3: LSB-first with reflected polynomial 0x8408,
caller-supplied init and caller-supplied final XOR `out`. -/
def crc16_ccitt_r (buf : List Nat) (crc out : Nat) : Nat :=
  (buf.foldl (lsb_byte 0x8408) crc) ^^^ out

/-- Modelled from the spec: `crc.cpp` is not under `src/`.  The GDL90
lookup table from the GDL90 ICD referenced by the spec (§4.3) and by
the header: entry `i` is eight MSB-first 0x1021 bit steps applied to
`i <<< 8`. -/
def gdl90_tab (i : Nat) : Nat := msb_steps 16 0x1021 8 ((i % 256) <<< 8)

/-- Modelled from the spec: `crc.cpp` is not under `src/`.  One byte of
the GDL90 CRC of the GDL90 ICD: the data byte is XORed into the low
byte of the new state after the table lookup, unlike XMODEM where it
enters the table index. -/
def gdl90_byte (crc b : Nat) : Nat :=
  gdl90_tab (crc >>> 8) ^^^ (crc <<< 8) % 65536 ^^^ b % 256

/-- Modelled from the spec: `crc.cpp` is not under `src/`.  GDL90
variant of CRC16-CCITT (§4.3), folded from the caller-held state. -/
def crc16_ccitt_GDL90 (buf : List Nat) (crc : Nat) : Nat :=
  buf.foldl gdl90_byte crc

/-- Modelled from the spec: `crc.cpp` is not under `src/`.  Modbus
CRC-16 of §4.3: polynomial 0x8005 reflected (LSB-first constant
0xA001), init 0xFFFF, no final XOR. -/
def calc_crc_modbus (buf : List Nat) : Nat :=
  buf.foldl (lsb_byte 0xA001) 0xFFFF

/-- Modelled from the spec: `crc.cpp` is not under `src/`.  One
Fletcher-16 step of §4.3: `c0 = (c0 + byte) mod 255` then
`c1 = (c1 + c0) mod 255`. -/
def fletcher_step (s : Nat × Nat) (b : Nat) : Nat × Nat :=
  let c0 := (s.1 + b % 256) % 255
  (c0, (s.2 + c0) % 255)

/-- Modelled from the spec: `crc.cpp` is not under `src/`.  Fletcher-16
of §4.3: both accumulators start at 0 and the result is
`(c1 <<< 8) ||| c0`. -/
def crc_fletcher16 (buffer : List Nat) : Nat :=
  let s := buffer.foldl fletcher_step (0, 0)
  (s.2 <<< 8) ||| s.1

/-- Modelled from the spec: `crc.cpp` is not under `src/`.  FNV-1a-64
of §4.7: the caller-provided location `hash` seeds the state (offset
basis 14695981039346656037 by default); per byte,
`hash = (hash XOR byte) * 1099511628211 mod 2 ^ 64`.  Returns the value
written back through the location. -/
def hash_fnv_1a (buf : List Nat) (hash : Nat) : Nat :=
  buf.foldl (fun h b => ((h ^^^ b % 256) * 1099511628211) % 18446744073709551616) hash

/-- Modelled from the spec: `crc.cpp` is not under `src/`.  One 32-bit
word of CRC-64-WE input (§4.6), consumed most-significant byte first. -/
def crc64_word (crc w : Nat) : Nat :=
  let w' := w % 4294967296
  [w' >>> 24, w' >>> 16, w' >>> 8, w'].foldl (msb_byte 64 0x42F0E1EBA9EA3693) crc

/-- Modelled from the spec: `crc.cpp` is not under `src/`.  CRC-64-WE
of §4.6: polynomial 0x42F0E1EBA9EA3693, init and final XOR both
0xFFFFFFFFFFFFFFFF, no reflection, word-oriented input. -/
def crc_crc64 (data : List Nat) : Nat :=
  (data.foldl crc64_word 0xFFFFFFFFFFFFFFFF) ^^^ 0xFFFFFFFFFFFFFFFF

/-- Modelled from the spec: `crc.cpp` is not under `src/`.  Sum of
bytes truncated to 8 bits (§4.8). -/
def crc_sum_of_bytes (data : List Nat) : Nat :=
  data.foldl (fun s b => (s + b % 256) % 256) 0

/-- Modelled from the spec: `crc.cpp` is not under `src/`.  Sum of
bytes added one at a time into a 16-bit accumulator (§4.8). -/
def crc_sum_of_bytes_16 (data : List Nat) : Nat :=
  data.foldl (fun s b => (s + b % 256) % 65536) 0

/-- Modelled from the spec: `crc.cpp` is not under `src/`.  One nibble
of the CRC-4 of §4.2: XOR the nibble into the 4-bit state, then four
MSB-first bit steps with polynomial 0x3. -/
def crc4_nibble (c n : Nat) : Nat := msb_steps 4 0x3 4 (c ^^^ n % 16)

/-- Modelled from the spec: `crc.cpp` is not under `src/`.  One 16-bit
half-word of CRC-4 input, processed four bits at a time from the high
nibble downward (§4.2). -/
def crc4_halfword (c w : Nat) : Nat :=
  let w' := w % 65536
  crc4_nibble (crc4_nibble (crc4_nibble (crc4_nibble c (w' >>> 12)) (w' >>> 8)) (w' >>> 4)) w'

/-- Modelled from the spec: `crc.cpp` is not under `src/`.  CRC-4 of
§4.2: consumes exactly the first 16 half-words of its input as a
256-bit message, polynomial 0x3, init 0. -/
def crc_crc4 (data : List Nat) : Nat :=
  (data.take 16).foldl crc4_halfword 0

/-- Declared bit-width of the buffer-length parameter of each
buffer-shaped entry point of `src/crc.h`, read off the header
signatures (uint8_t = 8, uint16_t = 16, uint32_t = 32). -/
def len_param_bits : List (String × Nat) :=
  [("crc_crc8", 8), ("crc8_generic", 16), ("crc8_dvb_s2_update", 32),
   ("crc8_dvb_update", 16), ("crc8_maxim", 16), ("crc8_sae", 16),
   ("crc8_rds02uf", 16), ("crc_xmodem", 16), ("crc_crc32", 32),
   ("crc32_small", 32), ("crc_crc24", 16), ("crc_crc16_ibm", 16),
   ("crc_sum8_with_carry", 8), ("crc16_ccitt", 32), ("crc16_ccitt_r", 32),
   ("crc16_ccitt_GDL90", 32), ("calc_crc_modbus", 16), ("crc_fletcher16", 32),
   ("hash_fnv_1a", 32), ("crc_crc64", 16), ("crc_sum_of_bytes", 16),
   ("crc_sum_of_bytes_16", 16)]

/-- Largest byte count representable in an unsigned length parameter of
`bits` bits, hence the most a single call can process. -/
def max_call_bytes (bits : Nat) : Nat := 2 ^ bits - 1

set_option maxRecDepth 100000

/-- Right shift distributes over XOR. -/
lemma shiftRight_xor (x y k : Nat) : (x ^^^ y) >>> k = x >>> k ^^^ y >>> k := by
  apply Nat.eq_of_testBit_eq
  intro i
  simp [Nat.testBit_shiftRight, Nat.testBit_xor]

/-- Parity of an XOR is the XOR of the parities. -/
lemma mod_two_xor (x y : Nat) : (x ^^^ y) % 2 = x % 2 ^^^ y % 2 := by
  have h := Nat.testBit_xor x y 0
  simp only [Nat.testBit_zero] at h
  rcases Nat.mod_two_eq_zero_or_one x with hx | hx <;>
    rcases Nat.mod_two_eq_zero_or_one y with hy | hy <;>
    rcases Nat.mod_two_eq_zero_or_one (x ^^^ y) with hxy | hxy <;>
    simp [hx, hy, hxy] at h ⊢

lemma xor_left_comm (a b c : Nat) : a ^^^ (b ^^^ c) = b ^^^ (a ^^^ c) := by
  rw [← Nat.xor_assoc, Nat.xor_comm a b, Nat.xor_assoc]

lemma xor_cancel_right (a b : Nat) : a ^^^ b ^^^ b = a := by
  rw [Nat.xor_assoc, Nat.xor_self, Nat.xor_zero]

/-- The LSB-first CRC bit step is XOR-linear. -/
lemma lsb_step_xor (poly x y : Nat) :
    lsb_step poly (x ^^^ y) = lsb_step poly x ^^^ lsb_step poly y := by
  have hxy := mod_two_xor x y
  unfold lsb_step
  rcases Nat.mod_two_eq_zero_or_one x with hx | hx <;>
    rcases Nat.mod_two_eq_zero_or_one y with hy | hy
  · have hc : (x ^^^ y) % 2 = 0 := by rw [hxy, hx, hy]; decide
    rw [if_neg (by omega), if_neg (by omega), if_neg (by omega), shiftRight_xor]
  · have hc : (x ^^^ y) % 2 = 1 := by rw [hxy, hx, hy]; decide
    rw [if_pos hc, if_neg (by omega), if_pos hy, shiftRight_xor]
    simp [Nat.xor_assoc, Nat.xor_comm, xor_left_comm, Nat.xor_self,
      Nat.xor_zero, Nat.zero_xor]
  · have hc : (x ^^^ y) % 2 = 1 := by rw [hxy, hx, hy]; decide
    rw [if_pos hc, if_pos hx, if_neg (by omega), shiftRight_xor]
    simp [Nat.xor_assoc, Nat.xor_comm, xor_left_comm, Nat.xor_self,
      Nat.xor_zero, Nat.zero_xor]
  · have hc : (x ^^^ y) % 2 = 0 := by rw [hxy, hx, hy]; decide
    rw [if_neg (by omega), if_pos hx, if_pos hy, shiftRight_xor]
    rw [Nat.xor_comm (x >>> 1) poly, Nat.xor_assoc poly, xor_left_comm poly (x >>> 1),
      xor_left_comm poly (y >>> 1), Nat.xor_self, Nat.xor_zero]

/-- Iterated LSB-first bit steps are XOR-linear. -/
lemma lsb_steps_xor (poly n x y : Nat) :
    lsb_steps poly n (x ^^^ y) = lsb_steps poly n x ^^^ lsb_steps poly n y := by
  induction n generalizing x y with
  | zero => rfl
  | succ n ih => simp only [lsb_steps, lsb_step_xor, ih]

/-- Splitting a run of LSB-first bit steps. -/
lemma lsb_steps_add (poly m n c : Nat) :
    lsb_steps poly (m + n) c = lsb_steps poly n (lsb_steps poly m c) := by
  induction m generalizing c with
  | zero => simp [lsb_steps]
  | succ m ih =>
    have h1 : m + 1 + n = (m + n) + 1 := by omega
    rw [h1]
    simp only [lsb_steps]
    exact ih (lsb_step poly c)

/-- `n` LSB-first bit steps applied to a value with `n` low zero bits
just shift it down: the conditional XOR never fires. -/
lemma lsb_steps_shiftLeft (poly n y : Nat) : lsb_steps poly n (y <<< n) = y := by
  induction n generalizing y with
  | zero => simp [lsb_steps]
  | succ n ih =>
    have heven : (y <<< (n + 1)) % 2 = 0 := by
      rw [Nat.shiftLeft_succ]; omega
    have hstep : lsb_step poly (y <<< (n + 1)) = y <<< n := by
      unfold lsb_step
      rw [heven]
      simp only [if_neg (by omega : ¬(0 : Nat) = 1)]
      rw [Nat.shiftLeft_succ, Nat.shiftRight_one]
      omega
    simp only [lsb_steps, hstep, ih]

/-- Low-nibble / high-part decomposition by XOR. -/
lemma mod16_xor (x : Nat) : x % 16 ^^^ (x >>> 4) <<< 4 = x := by
  have h16 : (16 : Nat) = 2 ^ 4 := rfl
  apply Nat.eq_of_testBit_eq
  intro i
  rw [h16]
  simp only [Nat.testBit_xor, Nat.testBit_mod_two_pow, Nat.testBit_shiftLeft,
    Nat.testBit_shiftRight]
  rcases Nat.lt_or_ge i 4 with h | h
  · simp [h, Nat.not_le.mpr h]
  · have h4 : 4 + (i - 4) = i := by omega
    simp [h, Nat.not_lt.mpr h, h4]

/-- Four LSB-first bit steps split into the nibble-table entry and the
shifted-down high part. -/
lemma lsb_steps4_decomp (x : Nat) :
    lsb_steps 0xEDB88320 4 x = crc32_small_tab x ^^^ x >>> 4 := by
  conv_lhs => rw [← mod16_xor x]
  rw [lsb_steps_xor, lsb_steps_shiftLeft]
  rfl

/-- The nibble-table entry expressed through four bit steps. -/
lemma crc32_small_tab_eq (x : Nat) :
    crc32_small_tab x = lsb_steps 0xEDB88320 4 x ^^^ x >>> 4 := by
  rw [lsb_steps4_decomp, xor_cancel_right]

/-- Let-free unfolding of `crc32_small_byte`. -/
lemma crc32_small_byte_def (c b : Nat) :
    crc32_small_byte c b =
      crc32_small_tab ((crc32_small_tab (c ^^^ b % 256) ^^^ c >>> 4) ^^^ (b % 256) >>> 4) ^^^
        (crc32_small_tab (c ^^^ b % 256) ^^^ c >>> 4) >>> 4 := rfl

/-- One byte through the small-table CRC-32 equals one byte through the
bit-serial (full) CRC-32. -/
lemma crc32_small_byte_eq (c b : Nat) :
    crc32_small_byte c b = lsb_byte 0xEDB88320 c b := by
  have hb : (b % 256) >>> 4 >>> 4 = 0 := by
    have h1 : b % 256 < 256 := Nat.mod_lt _ (by omega)
    have h2 : (b % 256) >>> 4 >>> 4 = (b % 256) >>> 8 := by
      rw [← Nat.shiftRight_add]
    rw [h2, Nat.shiftRight_eq_div_pow]
    exact Nat.div_eq_of_lt (by omega)
  have h1 : crc32_small_tab (c ^^^ b % 256) ^^^ c >>> 4
      = lsb_steps 0xEDB88320 4 (c ^^^ b % 256) ^^^ (b % 256) >>> 4 := by
    rw [crc32_small_tab_eq, shiftRight_xor, Nat.xor_assoc,
      Nat.xor_comm (c >>> 4) ((b % 256) >>> 4), xor_cancel_right]
  have h2 : (crc32_small_tab (c ^^^ b % 256) ^^^ c >>> 4) ^^^ (b % 256) >>> 4
      = lsb_steps 0xEDB88320 4 (c ^^^ b % 256) := by
    rw [h1, xor_cancel_right]
  rw [crc32_small_byte_def, h2, crc32_small_tab_eq, h1, shiftRight_xor, hb, Nat.xor_zero]
  rw [Nat.xor_assoc, Nat.xor_self, Nat.xor_zero, lsb_byte]
  have h8 : (8 : Nat) = 4 + 4 := rfl
  rw [h8, lsb_steps_add]

/-- Each MSB-first bit step lands inside the kernel width. -/
lemma msb_step_lt (w poly c : Nat) : msb_step w poly c < 2 ^ w := by
  unfold msb_step
  split <;> exact Nat.mod_lt _ (Nat.two_pow_pos w)

lemma msb_steps_lt (w poly n : Nat) : ∀ c : Nat, c < 2 ^ w → msb_steps w poly n c < 2 ^ w := by
  induction n with
  | zero => intro c h; exact h
  | succ n ih =>
    intro c _
    simp only [msb_steps]
    exact ih _ (msb_step_lt w poly c)

/-- A whole byte folded MSB-first lands inside the kernel width. -/
lemma msb_byte_lt (w poly c b : Nat) : msb_byte w poly c b < 2 ^ w := by
  have h : msb_byte w poly c b
      = msb_steps w poly 7 (msb_step w poly (c ^^^ (b % 256) <<< (w - 8))) := rfl
  rw [h]
  exact msb_steps_lt w poly 7 _ (msb_step_lt w poly _)

/-- Folding with a function whose outputs stay below a bound keeps the
accumulator below that bound. -/
lemma foldl_lt (f : Nat → Nat → Nat) (m : Nat) (hf : ∀ c b, f c b < m)
    (l : List Nat) : ∀ c : Nat, c < m → l.foldl f c < m := by
  induction l with
  | nil => intro c h; exact h
  | cons b t ih =>
    intro c _
    simp only [List.foldl_cons]
    exact ih _ (hf c b)

/-- One CRC-4 nibble update is a 4-bit value. -/
lemma crc4_nibble_lt (c n : Nat) : crc4_nibble c n < 16 := by
  have h : crc4_nibble c n = msb_steps 4 3 3 (msb_step 4 3 (c ^^^ n % 16)) := rfl
  have hlt := msb_steps_lt 4 3 3 _ (msb_step_lt 4 3 (c ^^^ n % 16))
  rw [h]
  exact lt_of_lt_of_eq hlt (by norm_num)

/-- One CRC-4 half-word update is a 4-bit value. -/
lemma crc4_halfword_lt (c w : Nat) : crc4_halfword c w < 16 := by
  unfold crc4_halfword
  exact crc4_nibble_lt _ _

/-- The two Fletcher accumulators stay below the modulus 255. -/
lemma fletcher_foldl_lt (l : List Nat) : ∀ s : Nat × Nat, s.1 < 255 → s.2 < 255 →
    (l.foldl fletcher_step s).1 < 255 ∧ (l.foldl fletcher_step s).2 < 255 := by
  induction l with
  | nil => intro s h1 h2; exact ⟨h1, h2⟩
  | cons b t ih =>
    intro s _ _
    simp only [List.foldl_cons]
    exact ih _ (Nat.mod_lt _ (by omega)) (Nat.mod_lt _ (by omega))

/-- A 16-bit modular running sum equals the plain sum reduced at the end. -/
lemma foldl_mod16 (l : List Nat) : ∀ s : Nat,
    l.foldl (fun a b => (a + b % 256) % 65536) (s % 65536) =
    (l.foldl (fun a b => a + b % 256) s) % 65536 := by
  induction l with
  | nil => intro s; rfl
  | cons b t ih =>
    intro s
    simp only [List.foldl_cons]
    rw [Nat.mod_add_mod, ih (s + b % 256)]

/-- C1: `crc_crc32` applies no implicit xor-in or xor-out to the
caller-held running state (the empty buffer returns the state
unchanged and each byte folds directly into the caller's state), and
under the caller-applied complement convention (start from 0xFFFFFFFF,
XOR the result with 0xFFFFFFFF outside the kernel) its value over the
nine ASCII bytes of the digit string one-to-nine is 0xCBF43926. -/
theorem crc_crc32_caller_convention :
    (∀ crc : Nat, crc_crc32 crc [] = crc) ∧
    (∀ (crc b : Nat) (buf : List Nat),
      crc_crc32 crc (b :: buf) = crc_crc32 (lsb_byte 0xEDB88320 crc b) buf) ∧
    crc_crc32 0xFFFFFFFF [0x31, 0x32, 0x33, 0x34, 0x35, 0x36, 0x37, 0x38, 0x39] ^^^ 0xFFFFFFFF
      = 0xCBF43926 :=
  ⟨fun _ => rfl, fun _ _ _ => rfl, by decide⟩

/-- C2: for every running state and every byte buffer, the small-table
CRC-32 returns exactly the same value as the full bit-serial CRC-32. -/
theorem crc32_small_eq_crc_crc32 (crc : Nat) (buf : List Nat) :
    crc32_small crc buf = crc_crc32 crc buf := by
  unfold crc32_small crc_crc32
  induction buf generalizing crc with
  | nil => rfl
  | cons b t ih =>
    simp only [List.foldl_cons, crc32_small_byte_eq]
    exact ih _

/-- C3: for the kernels exposing a one-byte incremental update, the
block form over a concatenation `a ++ b` equals folding the update
over `a` and then `b` from the kernel's initial value (or the
caller-held state), at every byte boundary; in particular `crc_xmodem`
is the fold of `crc_xmodem_update` from 0x0000 and
`crc8_dvb_s2_update` is the fold of `crc8_dvb_s2` from the caller's
state. -/
theorem incremental_fold_concat :
    (∀ a b : List Nat,
      crc_xmodem (a ++ b) = b.foldl crc_xmodem_update (a.foldl crc_xmodem_update 0)) ∧
    (∀ (crc : Nat) (a b : List Nat),
      crc8_dvb_s2_update crc (a ++ b) = b.foldl crc8_dvb_s2 (a.foldl crc8_dvb_s2 crc)) ∧
    (∀ (crc : Nat) (a b : List Nat),
      crc_crc32 crc (a ++ b) = crc_crc32 (crc_crc32 crc a) b) ∧
    (∀ (crc : Nat) (a b : List Nat),
      crc8_dvb_update crc (a ++ b) = crc8_dvb_update (crc8_dvb_update crc a) b) ∧
    (∀ data : List Nat, crc_xmodem data = data.foldl crc_xmodem_update 0) ∧
    (∀ (crc : Nat) (data : List Nat), crc8_dvb_s2_update crc data = data.foldl crc8_dvb_s2 crc) := by
  refine ⟨fun a b => ?_, fun crc a b => ?_, fun crc a b => ?_, fun crc a b => ?_,
    fun _ => rfl, fun _ _ => rfl⟩ <;>
    simp [crc_xmodem, crc8_dvb_s2_update, crc_crc32, crc8_dvb_update, List.foldl_append]

/-- C4: Fletcher-16 runs two accumulators from (0, 0) with
`c0 = (c0 + byte) mod 255` then `c1 = (c1 + c0) mod 255` (modulus 255,
as the value on the byte 0xFF shows), keeps both below 255, packs the
result as `(c1 <<< 8) ||| c0`, and over the buffer 0x01 0x02 returns
0x0403 with state (3, 4). -/
theorem crc_fletcher16_spec :
    crc_fletcher16 [0x01, 0x02] = 0x0403 ∧
    [(0x01 : Nat), 0x02].foldl fletcher_step (0, 0) = (3, 4) ∧
    crc_fletcher16 [0xFF] = 0 ∧
    (∀ buffer : List Nat, (buffer.foldl fletcher_step (0, 0)).1 < 255 ∧
      (buffer.foldl fletcher_step (0, 0)).2 < 255) ∧
    (∀ (s : Nat × Nat) (b : Nat),
      fletcher_step s b = ((s.1 + b % 256) % 255, (s.2 + (s.1 + b % 256) % 255) % 255)) :=
  ⟨by decide, by decide, by decide,
   fun buffer => fletcher_foldl_lt buffer (0, 0) (by omega) (by omega),
   fun _ _ => rfl⟩

/-- C5: the empty input returns each kernel's initial value with its
final XOR applied; FNV-1a leaves the offset basis 14695981039346656037
(and any caller-seeded basis) in the caller-provided location;
Fletcher-16 and the byte sum of the empty buffer are 0. -/
theorem empty_input_identity :
    crc_crc8 [] = 0 ∧
    (∀ polynomial initial_value : Nat, crc8_generic [] polynomial initial_value = initial_value) ∧
    (∀ crc : Nat, crc8_dvb_s2_update crc [] = crc) ∧
    (∀ crc : Nat, crc8_dvb_update crc [] = crc) ∧
    crc8_maxim [] = 0 ∧
    crc8_sae [] = 0 ∧
    crc8_rds02uf [] = 0 ∧
    crc_xmodem [] = 0 ∧
    (∀ crc : Nat, crc16_ccitt [] crc = crc) ∧
    (∀ crc out : Nat, crc16_ccitt_r [] crc out = crc ^^^ out) ∧
    (∀ crc : Nat, crc16_ccitt_GDL90 [] crc = crc) ∧
    calc_crc_modbus [] = 0xFFFF ∧
    (∀ crc : Nat, crc_crc16_ibm crc [] = crc) ∧
    (∀ crc : Nat, crc_crc32 crc [] = crc) ∧
    (∀ crc : Nat, crc32_small crc [] = crc) ∧
    crc_crc24 [] = 0 ∧
    crc_crc64 [] = 0 ∧
    hash_fnv_1a [] 14695981039346656037 = 14695981039346656037 ∧
    (∀ hash : Nat, hash_fnv_1a [] hash = hash) ∧
    crc_fletcher16 [] = 0 ∧
    crc_sum_of_bytes [] = 0 :=
  ⟨rfl, fun _ _ => rfl, fun _ => rfl, fun _ => rfl, rfl, by decide, rfl, rfl,
   fun _ => rfl, fun _ _ => rfl, fun _ => rfl, rfl, fun _ => rfl, fun _ => rfl,
   fun _ => rfl, rfl, by decide, rfl, fun _ => rfl, by decide, rfl⟩

/-- C6: there is an input buffer on which the GDL90 CRC-16 (from
initial state 0) and the XMODEM CRC-16 disagree: the single byte 0x01
already separates them. -/
theorem gdl90_differs_from_xmodem :
    ∃ buf : List Nat, crc16_ccitt_GDL90 buf 0 ≠ crc_xmodem buf :=
  ⟨[0x01], by decide⟩

/-- C7: `crc_crc24` is the width-24 CRC with polynomial 0x1864CFB,
init 0, no reflection and no final XOR (the empty buffer gives 0 and
the single byte 0x01 gives the polynomial remainder 0x864CFB), and its
result always fits in the low 24 bits: the high byte of the returned
word is zero. -/
theorem crc_crc24_spec :
    (∀ bytes : List Nat, crc_crc24 bytes < 2 ^ 24) ∧
    crc_crc24 [] = 0 ∧
    crc_crc24 [0x01] = 0x864CFB :=
  ⟨fun bytes => foldl_lt (msb_byte 24 0x1864CFB) (2 ^ 24)
      (fun c b => msb_byte_lt 24 0x1864CFB c b) bytes 0 (by norm_num),
   rfl, by decide⟩

/-- C8: `crc_crc4` reads exactly the first 16 half-words of its input
(its value is unchanged by anything beyond them, and the sixteenth
half-word does matter), and always returns a 4-bit value in the low
nibble: the result is strictly below 16. -/
theorem crc_crc4_spec :
    (∀ data : List Nat, crc_crc4 data < 16) ∧
    (∀ data : List Nat, crc_crc4 data = crc_crc4 (data.take 16)) ∧
    crc_crc4 (List.replicate 15 0 ++ [1]) ≠ crc_crc4 (List.replicate 16 0) := by
  refine ⟨fun data => ?_, fun data => ?_, by decide⟩
  · exact foldl_lt crc4_halfword 16 (fun c w => crc4_halfword_lt c w) _ 0 (by omega)
  · unfold crc_crc4
    rw [List.take_take]
    norm_num

/-- C9: `crc_sum_of_bytes_16` is the sum of all input bytes reduced
modulo 2 ^ 16 (bytes added one at a time into a 16-bit accumulator);
on 257 bytes of 0xFF it returns 65535, which a reduction modulo 0xFFFF
would not produce. -/
theorem crc_sum_of_bytes_16_spec :
    (∀ data : List Nat,
      crc_sum_of_bytes_16 data = (data.foldl (fun s b => s + b % 256) 0) % 65536) ∧
    (∀ data : List Nat, crc_sum_of_bytes_16 data < 65536) ∧
    crc_sum_of_bytes_16 (List.replicate 257 0xFF) = 65535 ∧
    ((List.replicate 257 0xFF).foldl (fun s b => s + b % 256) 0) % 65535 ≠ 65535 := by
  refine ⟨fun data => ?_, fun data => ?_, by decide, by decide⟩
  · have h := foldl_mod16 data 0
    rw [Nat.zero_mod] at h
    exact h
  · exact foldl_lt _ 65536 (fun c b => Nat.mod_lt _ (by omega)) data 0 (by omega)

/-- C10: in the header signatures, the buffer-length parameter of
`crc_crc8` and of `crc_sum8_with_carry` is 8 bits wide, so one call
processes at most `max_call_bytes 8 = 255` bytes, while every other
buffer-shaped entry point declares a 16-bit or 32-bit length. -/
theorem len_param_width_spec :
    len_param_bits.lookup "crc_crc8" = some 8 ∧
    len_param_bits.lookup "crc_sum8_with_carry" = some 8 ∧
    max_call_bytes 8 = 255 ∧
    (len_param_bits.all fun p =>
      p.1 == "crc_crc8" || p.1 == "crc_sum8_with_carry" || p.2 == 16 || p.2 == 32) = true :=
  ⟨by decide, by decide, by decide, by decide⟩
